import Mathlib

/-!
# Verification of the Blog Content Analysis Pipeline

Shallow embedding of the Content Extraction & Analysis Engine of
`blog_analysis_pipeline_new.py` (class `BlogAnalysisPipeline`), together with
theorems settling the specification claims about it.

External library calls (HTML queries via BeautifulSoup, NLTK tokenizers,
`textstat`, the VADER sentiment analyzer, `urljoin`) are modelled as explicit
oracle parameters / record fields holding their results; everything the Python
source itself computes (regex date scanning, `strptime` validation, whitespace
normalization, the validity gate, keyword tone rules, frequency counting and
stable sorting, the link filter/dedup/cap) is translated directly from the
source.
-/

/-- Python `\s` / `str.split()` whitespace for the ASCII range
(space, tab, newline, carriage return, vertical tab, form feed). -/
def pyIsSpace (c : Char) : Bool :=
  c = ' ' || c = '\t' || c = '\n' || c = '\r' || c = '\x0b' || c = '\x0c'

/-- State machine for `re.sub(r'\s+', ' ', s)`: the flag records whether the
scan is inside a whitespace run whose single replacement space was already
emitted. -/
def collapseWsAux : Bool → List Char → List Char
  | _, [] => []
  | inRun, c :: rest =>
    if pyIsSpace c then
      if inRun then collapseWsAux true rest
      else ' ' :: collapseWsAux true rest
    else c :: collapseWsAux false rest

/-- `re.sub(r'\s+', ' ', s)`: collapse every run of whitespace to a single
space. -/
def collapseWs (l : List Char) : List Char :=
  collapseWsAux false l

/-- Python `str.strip()` on a character list: drop leading and trailing
whitespace. -/
def pyStrip (l : List Char) : List Char :=
  ((l.dropWhile pyIsSpace).reverse.dropWhile pyIsSpace).reverse

/-- Python `str.strip()`. -/
def pyStripStr (s : String) : String :=
  ⟨pyStrip s.data⟩

/-- `re.sub(r'\s+', ' ', s).strip()` — the body-text cleanup of
`scrape_blog_content` (line 383 of the source). -/
def normalizeWs (s : String) : String :=
  ⟨pyStrip (collapseWs s.data)⟩

/-- Accumulator pass for Python `str.split()`: `acc` is the current word,
reversed. -/
def pySplitAux : List Char → List Char → List (List Char)
  | acc, [] => if acc.isEmpty then [] else [acc.reverse]
  | acc, c :: rest =>
    if pyIsSpace c then
      if acc.isEmpty then pySplitAux [] rest
      else acc.reverse :: pySplitAux [] rest
    else pySplitAux (c :: acc) rest

/-- Python `str.split()` (no argument): split on runs of whitespace,
discarding empty tokens. -/
def pySplit (l : List Char) : List (List Char) :=
  pySplitAux [] l

/-- `len(content_text.split())` — the word count of `analyze_text_content`. -/
def wordCount (text : String) : Nat :=
  (pySplit text.data).length

/-- Python substring containment `sub in s`. -/
def strContains (s sub : String) : Bool :=
  (List.range (s.data.length + 1)).any (fun i => sub.data.isPrefixOf (s.data.drop i))

/-- Python `str.lower()` on the ASCII range, characterwise. -/
def pyCharLower (c : Char) : Char :=
  if 'A' ≤ c && c ≤ 'Z' then Char.ofNat (c.toNat + 32) else c

/-- Python `str.lower()` on the ASCII range. -/
def pyToLower (s : String) : String :=
  ⟨s.data.map pyCharLower⟩

/-- Decimal digits, as matched by `\d` on the ASCII range. -/
def pyIsDigit (c : Char) : Bool :=
  '0' ≤ c && c ≤ '9'

/-- Numeric value of a digit string. -/
def digitsToNat (l : List Char) : Nat :=
  l.foldl (fun n c => 10 * n + (c.toNat - 48)) 0

/-! ## Publication-date resolution (`scrape_blog_content`, lines 315-338)

The source scans `str(soup)` with `re.search` for three patterns in a fixed
order and validates each first match with `datetime.strptime` under the
formats `%Y-%m-%d` and then `%m/%d/%Y`. -/

/-- A Python `datetime.date` value. -/
structure PyDate where
  year : Nat
  month : Nat
  day : Nat
deriving DecidableEq, Repr

/-- Gregorian leap year, as used by `datetime.date` validation. -/
def isLeapYear (y : Nat) : Bool :=
  y % 4 = 0 && (y % 100 ≠ 0 || y % 400 = 0)

/-- Days in a month, as used by `datetime.date` validation. -/
def daysInMonth (y m : Nat) : Nat :=
  if m = 1 || m = 3 || m = 5 || m = 7 || m = 8 || m = 10 || m = 12 then 31
  else if m = 4 || m = 6 || m = 9 || m = 11 then 30
  else if m = 2 then (if isLeapYear y then 29 else 28)
  else 0

/-- Split a character list on every occurrence of `sep` (Python-style:
`n` separators yield `n + 1` parts, possibly empty). -/
def splitOnChar (sep : Char) : List Char → List (List Char)
  | [] => [[]]
  | c :: t =>
    if c = sep then [] :: splitOnChar sep t
    else
      match splitOnChar sep t with
      | h :: t2 => (c :: h) :: t2
      | [] => [[c]]

/-- The `%Y` directive: exactly four digits, and `datetime.date` requires a
year of at least 1 (at most 9999 is automatic for four digits). -/
def validYearField (ys : List Char) : Bool :=
  ys.length = 4 && ys.all pyIsDigit && 1 ≤ digitsToNat ys

/-- The `%m` directive: one or two digits with value 1..12 (the CPython
regex `1[0-2]|0[1-9]|[1-9]`). -/
def validMonthField (ms : List Char) : Bool :=
  (ms.length = 1 || ms.length = 2) && ms.all pyIsDigit &&
    1 ≤ digitsToNat ms && digitsToNat ms ≤ 12

/-- The `%d` directive: one or two digits with value 1..31 (the CPython
regex `3[01]|[12]\d|0[1-9]|[1-9]`). -/
def validDayField (ds : List Char) : Bool :=
  (ds.length = 1 || ds.length = 2) && ds.all pyIsDigit &&
    1 ≤ digitsToNat ds && digitsToNat ds ≤ 31

/-- `datetime.strptime(s, '%Y-%m-%d').date()`: the string must be exactly
`year-month-day` with valid fields forming a valid calendar date. -/
def strptimeYmd (s : String) : Option PyDate :=
  match splitOnChar '-' s.data with
  | [ys, ms, ds] =>
    if validYearField ys && validMonthField ms && validDayField ds &&
        digitsToNat ds ≤ daysInMonth (digitsToNat ys) (digitsToNat ms) then
      some ⟨digitsToNat ys, digitsToNat ms, digitsToNat ds⟩
    else none
  | _ => none

/-- `datetime.strptime(s, '%m/%d/%Y').date()`. -/
def strptimeMdY (s : String) : Option PyDate :=
  match splitOnChar '/' s.data with
  | [ms, ds, ys] =>
    if validYearField ys && validMonthField ms && validDayField ds &&
        digitsToNat ds ≤ daysInMonth (digitsToNat ys) (digitsToNat ms) then
      some ⟨digitsToNat ys, digitsToNat ms, digitsToNat ds⟩
    else none
  | _ => none

/-- The nested `try`/`except` of lines 326-334: parse the matched substring
with `%Y-%m-%d` first, then `%m/%d/%Y`; `none` means both raised. -/
def tryParseDate (s : String) : Option PyDate :=
  match strptimeYmd s with
  | some d => some d
  | none => strptimeMdY s

/-- Match the regex `\d{4}-\d{2}-\d{2}` anchored at the head of the list,
returning the matched substring. -/
def matchP1At : List Char → Option (List Char)
  | a :: b :: c :: d :: '-' :: e :: f :: '-' :: g :: h :: _ =>
    if pyIsDigit a && pyIsDigit b && pyIsDigit c && pyIsDigit d &&
        pyIsDigit e && pyIsDigit f && pyIsDigit g && pyIsDigit h then
      some [a, b, c, d, '-', e, f, '-', g, h]
    else none
  | _ => none

/-- Match the regex `\d{2}/\d{2}/\d{4}` anchored at the head of the list. -/
def matchP2At : List Char → Option (List Char)
  | a :: b :: '/' :: c :: d :: '/' :: e :: f :: g :: h :: _ =>
    if pyIsDigit a && pyIsDigit b && pyIsDigit c && pyIsDigit d &&
        pyIsDigit e && pyIsDigit f && pyIsDigit g && pyIsDigit h then
      some [a, b, '/', c, d, '/', e, f, g, h]
    else none
  | _ => none

/-- The twelve abbreviated month names of the third date pattern. -/
def monthNames : List (List Char) :=
  [['J','a','n'], ['F','e','b'], ['M','a','r'], ['A','p','r'],
   ['M','a','y'], ['J','u','n'], ['J','u','l'], ['A','u','g'],
   ['S','e','p'], ['O','c','t'], ['N','o','v'], ['D','e','c']]

/-- Match `\s+` greedily at the head (nonempty run), returning run and rest. -/
def takeWsRun (l : List Char) : Option (List Char × List Char) :=
  match l with
  | c :: _ =>
    if pyIsSpace c then some (l.takeWhile pyIsSpace, l.dropWhile pyIsSpace)
    else none
  | [] => none

/-- Match one of the month-name alternatives at the head. -/
def matchMonthName (l : List Char) : Option (List Char × List Char) :=
  monthNames.findSome? (fun mn =>
    if mn.isPrefixOf l then some (mn, l.drop 3) else none)

/-- Match `\d{4}` at the head. -/
def matchFourDigits : List Char → Option (List Char)
  | a :: b :: c :: d :: _ =>
    if pyIsDigit a && pyIsDigit b && pyIsDigit c && pyIsDigit d then
      some [a, b, c, d]
    else none
  | _ => none

/-- Match `\s+(?:Jan|...|Dec)\s+\d{4}` at the head (the tail of the third
date pattern, after its leading digits). -/
def matchP3Tail (l : List Char) : Option (List Char) :=
  match takeWsRun l with
  | none => none
  | some (ws1, r1) =>
    match matchMonthName r1 with
    | none => none
    | some (mn, r2) =>
      match takeWsRun r2 with
      | none => none
      | some (ws2, r3) =>
        match matchFourDigits r3 with
        | none => none
        | some ds => some (ws1 ++ mn ++ ws2 ++ ds)

/-- Match `\d{1,2}\s+(?:Jan|...|Dec)\s+\d{4}` anchored at the head, with the
greedy two-digit alternative tried first, as the regex engine does. -/
def matchP3At : List Char → Option (List Char)
  | a :: b :: rest =>
    if pyIsDigit a then
      if pyIsDigit b then
        match matchP3Tail rest with
        | some t => some (a :: b :: t)
        | none => (matchP3Tail (b :: rest)).map (a :: ·)
      else (matchP3Tail (b :: rest)).map (a :: ·)
    else none
  | _ => none

/-- `re.search`: try the anchored matcher at every position, leftmost first,
returning the first matched substring. -/
def searchFirst (m : List Char → Option (List Char)) : List Char → Option (List Char)
  | [] => m []
  | c :: t =>
    match m (c :: t) with
    | some r => some r
    | none => searchFirst m t

/-- The `for pattern in date_patterns` loop of lines 323-334: for each
pattern in order, take its first match (if any) and try to parse it; on
parse failure move to the next pattern. `none` means no pattern produced a
parseable date, in which case the caller substitutes `date.today()`. -/
def resolveDateLoop : List (List Char → Option (List Char)) → List Char → Option PyDate
  | [], _ => none
  | m :: ms, doc =>
    match searchFirst m doc with
    | none => resolveDateLoop ms doc
    | some s =>
      match tryParseDate ⟨s⟩ with
      | some d => some d
      | none => resolveDateLoop ms doc

/-- Publication-date resolution over the serialized document: the three
patterns `YYYY-MM-DD`, `MM/DD/YYYY`, `D Month YYYY`, in that order. -/
def resolvePublicationDate (doc : List Char) : Option PyDate :=
  resolveDateLoop [matchP1At, matchP2At, matchP3At] doc

/-! ## Tone classifier (`analyze_tone`, lines 471-507) -/

/-- Keywords of the Inspirational rule (line 492). -/
def inspirationalKeywords : List String :=
  ["inspire", "motivate", "encourage", "dream", "vision"]

/-- Keywords of the Authoritative rule (line 494). -/
def authoritativeKeywords : List String :=
  ["expert", "authority", "certified", "proven", "research"]

/-- Keywords of the Persuasive rule (line 496; the source lists
`convince` twice). -/
def persuasiveKeywords : List String :=
  ["convince", "persuade", "convince", "should", "must"]

/-- Keywords of the Humorous rule (line 498). -/
def humorousKeywords : List String :=
  ["funny", "humor", "joke", "hilarious", "amusing"]

/-- Keywords of the Empathetic rule (line 500). -/
def empatheticKeywords : List String :=
  ["understand", "empathy", "feel", "care", "support"]

/-- `any(word in text_lower for word in kws)`. -/
def hasAnyKeyword (lower : String) (kws : List String) : Bool :=
  kws.any (fun w => strContains lower w)

/-- The `if`/`elif` keyword cascade of lines 492-503, applied to the
lowercased text. -/
def toneKeywordCascade (lower : String) : String :=
  if hasAnyKeyword lower inspirationalKeywords then "Inspirational"
  else if hasAnyKeyword lower authoritativeKeywords then "Authoritative"
  else if hasAnyKeyword lower persuasiveKeywords then "Persuasive"
  else if hasAnyKeyword lower humorousKeywords then "Humorous"
  else if hasAnyKeyword lower empatheticKeywords then "Empathetic"
  else "Informative"

/-- `analyze_tone` with the external sentiment analyzer modelled as a
stateful oracle: `avail` is whether `self.sentiment_analyzer` is non-`None`;
`polarity` models `polarity_scores`, returning an arbitrary scores value and
a successor analyzer state. The scores value is bound (line 486) but never
consulted by the label decision. -/
def analyzeToneSt {σ α : Type} (avail : Bool) (polarity : σ → String → α × σ)
    (st : σ) (text : String) : String × σ :=
  if !avail then ("Informative", st)
  else
    let scores := polarity st text
    (toneKeywordCascade (pyToLower text), scores.2)

/-- `analyze_tone` as a pure function of the text, for a fixed analyzer
availability and a stateless view of `polarity_scores`. -/
def analyzeTone {α : Type} (avail : Bool) (polarity : String → α) (text : String) : String :=
  (analyzeToneSt avail (fun (_ : Unit) t => (polarity t, ())) () text).1

/-! ## Lexical analyzer (`analyze_text_content`, lines 400-469) -/

/-- The external collaborators of `analyze_text_content`, fixed at pipeline
construction: `sent_tokenize`, `word_tokenize`, `textstat.flesch_reading_ease`
(real-valued scores modelled as rationals) and `self.stop_words`. -/
structure Env where
  sentTok : String → List String
  wordTok : String → List String
  flesch : String → ℚ
  stopWords : List String

/-- Python `round()`: round half to even, as applied to a rational value. -/
def pyRound (q : ℚ) : ℤ :=
  let f := ⌊q⌋
  let r := q - (f : ℚ)
  if r < 1 / 2 then f
  else if 1 / 2 < r then f + 1
  else if f % 2 = 0 then f else f + 1

/-- Python `round(x, 2)`. -/
def pyRound2 (q : ℚ) : ℚ :=
  (pyRound (q * 100) : ℚ) / 100

/-- `max(1, round(word_count / 200))` — line 417. -/
def avgReadingTime (wc : Nat) : ℤ :=
  max 1 (pyRound ((wc : ℚ) / 200))

/-- The complexity decision of lines 423-428. -/
def complexityLabel (score : ℚ) : String :=
  if score > 60 then "Too Basic"
  else if score ≥ 30 then "Optimal"
  else "Too Complex"

/-- `len(content_text.split()) / len(sentences) if sentences else 0` —
line 414, before the 2-decimal rounding applied at line 450. -/
def avgSentenceLength (env : Env) (text : String) : ℚ :=
  let sentences := env.sentTok text
  if sentences.isEmpty then 0
  else (wordCount text : ℚ) / (sentences.length : ℚ)

/-- Spec-phrased variant of the same quantity, for comparison: the spec
says `sentence_count ≥ 1` is "guaranteed by treating an unsegmentable text
as one sentence". -/
def avgSentenceLengthSpec (env : Env) (text : String) : ℚ :=
  (wordCount text : ℚ) / ((max 1 (env.sentTok text).length : ℕ) : ℚ)

/-- Python `str.isalpha()` (ASCII range): nonempty and all alphabetic. -/
def pyIsAlphaStr (w : String) : Bool :=
  !w.data.isEmpty && w.data.all Char.isAlpha

/-- Lines 434-435: tokenize the lowercased text and retain alphabetic
tokens not in the stop-word set. -/
def retainedWords (env : Env) (text : String) : List String :=
  (env.wordTok (pyToLower text)).filter
    (fun w => pyIsAlphaStr w && !env.stopWords.contains w)

/-- One step of the `word_freq` dictionary build: increment the count of
`w` if present, else append `(w, 1)` (Python dicts preserve insertion
order, so the key order is first-seen order). -/
def bumpCount : List (String × Nat) → String → List (String × Nat)
  | [], w => [(w, 1)]
  | (k, c) :: rest, w =>
    if k = w then (k, c + 1) :: rest else (k, c) :: bumpCount rest w

/-- Lines 438-440: the `word_freq` dictionary as an insertion-ordered
association list. -/
def buildFreq (ws : List String) : List (String × Nat) :=
  ws.foldl bumpCount []

/-- Stable descending insertion by key: a later element is placed after all
already-placed elements of greater or equal key, which is exactly the
stability guarantee of Python `sorted(..., reverse=True)`. -/
def insertByKey {α : Type} (key : α → Nat) (x : α) : List α → List α
  | [] => [x]
  | y :: ys => if key x ≤ key y then y :: insertByKey key x ys else x :: y :: ys

/-- Stable sort, descending by key (the behavior of
`sorted(word_freq.items(), key=lambda x: x[1], reverse=True)`). -/
def sortByKeyDesc {α : Type} (key : α → Nat) (l : List α) : List α :=
  l.foldl (fun acc x => insertByKey key x acc) []

/-- Line 443: `top_words`, the ten highest-count `(word, count)` pairs. -/
def topWords (env : Env) (text : String) : List (String × Nat) :=
  (sortByKeyDesc (fun p => p.2) (buildFreq (retainedWords env text))).take 10

/-- Lines 437-446: `most_frequent_words`, the joined display list. -/
def mostFrequentWords (env : Env) (text : String) : String :=
  if (retainedWords env text).isEmpty then ""
  else String.intercalate ", " ((topWords env text).map Prod.fst)

/-- The analysis record assembled by `analyze_text_content` (happy path;
the `except` branch returning the all-zero record is unreachable in this
pure embedding). -/
structure AnalysisData where
  word_count : Nat
  avg_sentence_length : ℚ
  avg_reading_time : ℤ
  readability_score : ℚ
  optimal_complexity : String
  tone_label : String
  most_frequent_words : String
deriving DecidableEq, Repr

/-- `analyze_text_content`, threading the sentiment analyzer's oracle state
through its single `analyze_tone` call. -/
def analyzeTextContentSt {σ α : Type} (env : Env) (avail : Bool)
    (polarity : σ → String → α × σ) (st : σ) (text : String) : AnalysisData × σ :=
  let tone := analyzeToneSt avail polarity st text
  ({ word_count := wordCount text,
     avg_sentence_length := pyRound2 (avgSentenceLength env text),
     avg_reading_time := avgReadingTime (wordCount text),
     readability_score := pyRound2 (env.flesch text),
     optimal_complexity := complexityLabel (env.flesch text),
     tone_label := tone.1,
     most_frequent_words := mostFrequentWords env text }, tone.2)

/-- `analyze_text_content` as a pure function of the text. -/
def analyzeTextContent {α : Type} (env : Env) (avail : Bool)
    (polarity : String → α) (text : String) : AnalysisData :=
  (analyzeTextContentSt env avail (fun (_ : Unit) t => (polarity t, ())) () text).1

/-! ## Content extractor (`scrape_blog_content`, lines 289-398)

The BeautifulSoup queries are modelled as a record of their results: each
field holds the text an element query would produce (`none` when the query
finds no element). -/

/-- Results of the HTML queries performed by `scrape_blog_content`. -/
structure Soup where
  /-- `soup.find('title')`: its `get_text()` when found. -/
  titleTag : Option String
  /-- `soup.find('h1')`. -/
  h1Tag : Option String
  /-- `soup.find('h2')`. -/
  h2Tag : Option String
  /-- `str(soup)`, the serialized document scanned for dates. -/
  serialized : String
  /-- Per category selector, in order: the stripped-text source of
  `select_one`, when it matches. -/
  categoryResults : List (Option String)
  /-- Per content selector, in order: the `get_text(separator=' ',
  strip=True)` result after script/style removal, when it matches. -/
  contentResults : List (Option String)
  /-- `soup.find('body')`: its visible text after script/style removal. -/
  bodyTag : Option String

/-- Lines 310-313: document title element, else first h1, else first h2,
else empty string. -/
def extractedTitle (soup : Soup) : String :=
  match soup.titleTag <|> soup.h1Tag <|> soup.h2Tag with
  | some t => pyStripStr t
  | none => ""

/-- Lines 341-354: first matching category selector, else "General". -/
def extractedCategory (soup : Soup) : String :=
  match soup.categoryResults.findSome? id with
  | some c => pyStripStr c
  | none => "General"

/-- The content-selector loop of lines 357-372: each matching selector
overwrites `content_text`; the loop breaks at the first text longer than
100 characters, so the result is the first candidate exceeding 100
characters, else the last candidate, else the empty string. -/
def selectContent : List String → String
  | [] => ""
  | [c] => c
  | c :: rest => if c.length > 100 then c else selectContent rest

/-- Lines 357-383: body-text selection (content selectors, the whole-body
fallback when the selection is at most 100 characters) followed by
whitespace normalization. -/
def finalBodyText (soup : Soup) : String :=
  let ct0 := selectContent (soup.contentResults.filterMap id)
  let ct1 :=
    if ct0.length < 100 then
      match soup.bodyTag with
      | some b => b
      | none => ct0
    else ct0
  normalizeWs ct1

/-- The article record returned by `scrape_blog_content`. -/
structure ExtractedArticle where
  title : String
  publication_date : PyDate
  category : String
  tags : String
  content_text : String
deriving DecidableEq, Repr

/-- `scrape_blog_content`: `today` is `date.today()` at the run. Returns
`none` (the "invalid" result) when the normalized body text is shorter
than 50 characters. -/
def scrapeBlogContent (soup : Soup) (today : PyDate) : Option ExtractedArticle :=
  let content_text := finalBodyText soup
  if content_text.length < 50 then none
  else some
    { title := extractedTitle soup
      publication_date := (resolvePublicationDate soup.serialized.data).getD today
      category := extractedCategory soup
      tags := ""
      content_text := content_text }

/-- The per-link step of `run_scraping_pipeline` (lines 589-594): skip when
extraction returns the invalid result, otherwise analyze the extracted
body text. -/
def processLink {α : Type} (env : Env) (avail : Bool) (polarity : String → α)
    (soup : Soup) (today : PyDate) : Option AnalysisData :=
  (scrapeBlogContent soup today).map
    (fun r => analyzeTextContent env avail polarity r.content_text)

/-! ## Link discoverer (`scrape_blog_links`, lines 242-287) -/

/-- The fixed indicator set of lines 273-276. -/
def blogIndicators : List String :=
  ["/blog/", "/post/", "/article/", "/news/", "/insights/",
   "blog", "post", "article", "news", "insights"]

/-- `any(indicator in full_url.lower() for indicator in [...])`. -/
def hasBlogIndicator (u : String) : Bool :=
  blogIndicators.any (fun k => strContains (pyToLower u) k)

/-- `scrape_blog_links` on a fetched listing page: `resolve` models
`urljoin(base_url, ·)` and `hrefs` the `href` values of the document's
anchors, in document order. The collection loop keeps each resolved URL
containing an indicator; then `list(set(blog_links))[:20]` deduplicates
and caps at 20. -/
def scrapeBlogLinks (resolve : String → String) (hrefs : List String) : List String :=
  let blogLinks := (hrefs.map resolve).filter hasBlogIndicator
  blogLinks.dedup.take 20

/-! ## Auxiliary concrete instances used by witnesses and counterexamples -/

/-- An analysis environment whose sentence tokenizer finds no sentence in
any input (the "unsegmentable text" scenario of the spec). -/
def envNoSentences : Env :=
  { sentTok := fun _ => []
    wordTok := fun _ => []
    flesch := fun _ => 0
    stopWords := [] }

/-- A soup with no matching element anywhere (an empty / unparseable page). -/
def soupEmpty : Soup :=
  ⟨none, none, none, "", [], [], none⟩

/-! ## Evaluation sanity checks: the embedding runs on concrete inputs -/

example : normalizeWs "  a  b\t\nc " = "a b c" := by decide
example : wordCount "ab cd" = 2 := by decide
example : strContains "we inspire you" "inspire" = true := by decide
example : strContains "nothing here" "inspire" = false := by decide
example : resolvePublicationDate "on 2024-03-05!".data = some ⟨2024, 3, 5⟩ := by decide
example : resolvePublicationDate "x 03/15/2024".data = some ⟨2024, 3, 15⟩ := by decide
example : resolvePublicationDate "5 Jan 2020".data = none := by decide
example : resolvePublicationDate "2024-13-45".data = none := by decide
example : resolvePublicationDate "2024-13-45 then 01/02/2024".data = some ⟨2024, 1, 2⟩ := by decide
example : resolvePublicationDate "nothing".data = none := by decide
example : resolvePublicationDate "2024-02-30".data = none := by decide
example : resolvePublicationDate "2024-02-29".data = some ⟨2024, 2, 29⟩ := by decide
example : resolvePublicationDate "2023-02-29".data = none := by decide
example : toneKeywordCascade "we inspire experts" = "Inspirational" := by decide
example : toneKeywordCascade "expert view" = "Authoritative" := by decide
example : toneKeywordCascade "plain text" = "Informative" := by decide
example : complexityLabel 45 = "Optimal" := by decide
example : avgReadingTime 1000 = 5 := by norm_num [avgReadingTime, pyRound]
example : avgReadingTime 0 = 1 := by norm_num [avgReadingTime, pyRound]
example : avgReadingTime 100 = 1 := by norm_num [avgReadingTime, pyRound]
example : avgReadingTime 500 = 2 := by norm_num [avgReadingTime, pyRound]
example : buildFreq ["b", "a", "a"] = [("b", 1), ("a", 2)] := by decide
example : sortByKeyDesc (fun p : String × Nat => p.2) [("b", 1), ("a", 2), ("c", 1)]
    = [("a", 2), ("b", 1), ("c", 1)] := by decide
example : scrapeBlogLinks id ["/blog/a", "/blog/a", "/x"] = ["/blog/a"] := by decide
example : scrapeBlogLinks id ["/x", "/y"] = [] := by decide
example : (scrapeBlogContent ⟨none, none, none, "", [], [], none⟩ ⟨2025, 1, 1⟩) = none := by
  decide

/-! ## Theorems -/

/-- Helper: the two stateful analysis entry points ignore the sentiment
oracle's output, so their visible result is unchanged across invocations. -/
theorem analyzeToneSt_fst_const {σ α : Type} (avail : Bool)
    (polarity : σ → String → α × σ) (st st' : σ) (text : String) :
    (analyzeToneSt avail polarity st text).1 = (analyzeToneSt avail polarity st' text).1 := by
  cases avail <;> rfl

/-- C2: for every fixed body text, repeated invocations of the Lexical
Analyzer (`analyze_text_content`) and of the Tone Classifier
(`analyze_tone`) return identical outputs. Modelled with the sentiment
analyzer as an arbitrary stateful oracle (the only per-call external signal
the analysis consults): a second invocation, started from whatever state
the first invocation left, produces the same `AnalysisData` and the same
tone label, so the result is a deterministic function of the body text for
the pipeline's fixed configuration. -/
theorem c2_analysis_deterministic {σ α : Type} (env : Env) (avail : Bool)
    (polarity : σ → String → α × σ) (st : σ) (text : String) :
    (analyzeTextContentSt env avail polarity
        (analyzeTextContentSt env avail polarity st text).2 text).1
      = (analyzeTextContentSt env avail polarity st text).1 ∧
    (analyzeToneSt avail polarity
        (analyzeToneSt avail polarity st text).2 text).1
      = (analyzeToneSt avail polarity st text).1 := by
  cases avail <;> exact ⟨rfl, rfl⟩

/-- C7: `avg_reading_time` is `max(1, round(word_count / 200))` (Python
banker's rounding), hence always at least 1; word count 1000 yields 5. -/
theorem c7_reading_time_floor :
    (∀ wc : Nat, avgReadingTime wc = max 1 (pyRound ((wc : ℚ) / 200))) ∧
    (∀ wc : Nat, 1 ≤ avgReadingTime wc) ∧
    avgReadingTime 1000 = 5 := by
  refine ⟨fun _ => rfl, fun wc => le_max_left _ _, ?_⟩
  norm_num [avgReadingTime, pyRound]

/-- C10: when the sentiment analyzer failed to initialize and is stored as
`None` (`avail = false`), `analyze_tone` returns "Informative" for every
input text — the keyword rules are short-circuited by the early return of
line 482-483, even for texts containing higher-priority keywords. -/
theorem c10_tone_unavailable {α : Type} (polarity : String → α) (text : String) :
    analyzeTone false polarity text = "Informative" ∧
    analyzeTone false polarity "we inspire every expert" = "Informative" := by
  exact ⟨rfl, rfl⟩

/-- C5: exactly one complexity label per readability score, with inclusive
boundaries: score > 60 is "Too Basic", 30 ≤ score ≤ 60 is "Optimal"
(so 60 and 30 are both "Optimal"), score < 30 is "Too Complex". -/
theorem c5_complexity_partition (s : ℚ) :
    (complexityLabel s = "Too Basic" ↔ 60 < s) ∧
    (complexityLabel s = "Optimal" ↔ 30 ≤ s ∧ s ≤ 60) ∧
    (complexityLabel s = "Too Complex" ↔ s < 30) := by
  by_cases h1 : 60 < s
  · have heq : complexityLabel s = "Too Basic" := by
      unfold complexityLabel; rw [if_pos h1]
    rw [heq]
    exact ⟨⟨fun _ => h1, fun _ => rfl⟩,
      ⟨fun h => absurd h (by decide), fun h => absurd h1 (not_lt.mpr h.2)⟩,
      ⟨fun h => absurd h (by decide), fun h => absurd h1 (not_lt.mpr (by linarith))⟩⟩
  · by_cases h2 : s ≥ 30
    · have heq : complexityLabel s = "Optimal" := by
        unfold complexityLabel; rw [if_neg h1, if_pos h2]
      rw [heq]
      exact ⟨⟨fun h => absurd h (by decide), fun hc => absurd hc h1⟩,
        ⟨fun _ => ⟨h2, not_lt.mp h1⟩, fun _ => rfl⟩,
        ⟨fun h => absurd h (by decide), fun hc => absurd h2 (not_le.mpr hc)⟩⟩
    · have heq : complexityLabel s = "Too Complex" := by
        unfold complexityLabel; rw [if_neg h1, if_neg h2]
      rw [heq]
      exact ⟨⟨fun h => absurd h (by decide), fun hc => absurd hc h1⟩,
        ⟨fun h => absurd h (by decide), fun hc => absurd hc.1 h2⟩,
        ⟨fun _ => not_le.mp h2, fun _ => rfl⟩⟩

/-- C9 (amended): the division `word_count / sentence_count` is performed
only when the sentence tokenizer returned at least one sentence; an empty
segmentation is guarded by the `if sentences else 0` expression, which
yields 0 instead of treating the text as one sentence. Division by zero
never occurs. -/
theorem c9_sentence_division_guard (env : Env) (text : String) :
    (env.sentTok text = [] → avgSentenceLength env text = 0) ∧
    (env.sentTok text ≠ [] →
      avgSentenceLength env text
          = (wordCount text : ℚ) / ((env.sentTok text).length : ℚ) ∧
      1 ≤ (env.sentTok text).length) := by
  refine ⟨fun h => ?_, fun h => ?_⟩
  · simp [avgSentenceLength, h]
  · refine ⟨?_, List.length_pos.mpr h⟩
    have hne : (env.sentTok text).isEmpty = false := by
      simpa [List.isEmpty_iff] using h
    simp [avgSentenceLength, hne]

/-- C9 counterexample: on a two-word text whose sentence tokenizer yields no
sentence, the spec's rule ("treat an unsegmentable text as one sentence",
giving 2 / 1 = 2) disagrees with the code, which returns 0. -/
theorem c9_counterexample :
    avgSentenceLength envNoSentences "ab cd" = 0 ∧
    avgSentenceLengthSpec envNoSentences "ab cd" = 2 := by
  constructor
  · simp [avgSentenceLength, envNoSentences]
  · have hwc : wordCount "ab cd" = 2 := by decide
    simp [avgSentenceLengthSpec, envNoSentences, hwc]

/-- C4: with the sentiment analyzer available, `analyze_tone` returns
exactly one of the six labels, chosen by the first matching keyword rule
against the lowercased text in the fixed priority order Inspirational,
Authoritative, Persuasive, Humorous, Empathetic, defaulting to
"Informative"; in particular any text containing both "inspire" and
"expert" is classified "Inspirational". -/
theorem c4_tone_priority {α : Type} (polarity : String → α) (text : String) :
    (analyzeTone true polarity text = "Inspirational" ∨
     analyzeTone true polarity text = "Authoritative" ∨
     analyzeTone true polarity text = "Persuasive" ∨
     analyzeTone true polarity text = "Humorous" ∨
     analyzeTone true polarity text = "Empathetic" ∨
     analyzeTone true polarity text = "Informative") ∧
    (analyzeTone true polarity text = "Inspirational" ↔
      hasAnyKeyword (pyToLower text) inspirationalKeywords = true) ∧
    (analyzeTone true polarity text = "Authoritative" ↔
      hasAnyKeyword (pyToLower text) inspirationalKeywords = false ∧
      hasAnyKeyword (pyToLower text) authoritativeKeywords = true) ∧
    (analyzeTone true polarity text = "Persuasive" ↔
      hasAnyKeyword (pyToLower text) inspirationalKeywords = false ∧
      hasAnyKeyword (pyToLower text) authoritativeKeywords = false ∧
      hasAnyKeyword (pyToLower text) persuasiveKeywords = true) ∧
    (analyzeTone true polarity text = "Humorous" ↔
      hasAnyKeyword (pyToLower text) inspirationalKeywords = false ∧
      hasAnyKeyword (pyToLower text) authoritativeKeywords = false ∧
      hasAnyKeyword (pyToLower text) persuasiveKeywords = false ∧
      hasAnyKeyword (pyToLower text) humorousKeywords = true) ∧
    (analyzeTone true polarity text = "Empathetic" ↔
      hasAnyKeyword (pyToLower text) inspirationalKeywords = false ∧
      hasAnyKeyword (pyToLower text) authoritativeKeywords = false ∧
      hasAnyKeyword (pyToLower text) persuasiveKeywords = false ∧
      hasAnyKeyword (pyToLower text) humorousKeywords = false ∧
      hasAnyKeyword (pyToLower text) empatheticKeywords = true) ∧
    (analyzeTone true polarity text = "Informative" ↔
      hasAnyKeyword (pyToLower text) inspirationalKeywords = false ∧
      hasAnyKeyword (pyToLower text) authoritativeKeywords = false ∧
      hasAnyKeyword (pyToLower text) persuasiveKeywords = false ∧
      hasAnyKeyword (pyToLower text) humorousKeywords = false ∧
      hasAnyKeyword (pyToLower text) empatheticKeywords = false) ∧
    (strContains (pyToLower text) "inspire" = true →
      strContains (pyToLower text) "expert" = true →
      analyzeTone true polarity text = "Inspirational") := by
  have hrw : analyzeTone true polarity text = toneKeywordCascade (pyToLower text) := rfl
  rw [hrw]
  generalize pyToLower text = L
  have hins : strContains L "inspire" = true →
      hasAnyKeyword L inspirationalKeywords = true := by
    intro h
    simp [hasAnyKeyword, inspirationalKeywords]
    exact Or.inl h
  unfold toneKeywordCascade
  split_ifs with h1 h2 h3 h4 h5
  · exact ⟨by simp, by simp [h1], by simp [h1], by simp [h1], by simp [h1],
      by simp [h1], by simp [h1], fun _ _ => rfl⟩
  · exact ⟨by simp, by simp [h1], by simp [h1, h2], by simp [h2], by simp [h2],
      by simp [h2], by simp [h2], fun ha _ => absurd (hins ha) (by simp [h1])⟩
  · exact ⟨by simp, by simp [h1], by simp [h2, h3], by simp [h1, h2, h3],
      by simp [h3], by simp [h3], by simp [h3],
      fun ha _ => absurd (hins ha) (by simp [h1])⟩
  · exact ⟨by simp, by simp [h1], by simp [h2], by simp [h3, h4],
      by simp [h1, h2, h3, h4], by simp [h4], by simp [h4],
      fun ha _ => absurd (hins ha) (by simp [h1])⟩
  · exact ⟨by simp, by simp [h1], by simp [h2], by simp [h3], by simp [h4, h5],
      by simp [h1, h2, h3, h4, h5], by simp [h5],
      fun ha _ => absurd (hins ha) (by simp [h1])⟩
  · exact ⟨by simp, by simp [h1], by simp [h2], by simp [h3], by simp [h4],
      by simp [h5], by simp [h1, h2, h3, h4, h5],
      fun ha _ => absurd (hins ha) (by simp [h1])⟩

/-- C6: the Link Discoverer returns a duplicate-free list of at most 20
resolved URLs, each retained because its lowercase form contains one of the
fixed indicator keywords, and returns the empty list (not an error) when no
hyperlink matches. -/
theorem c6_link_discoverer (resolve : String → String) (hrefs : List String) :
    (scrapeBlogLinks resolve hrefs).Nodup ∧
    (scrapeBlogLinks resolve hrefs).length ≤ 20 ∧
    (∀ u ∈ scrapeBlogLinks resolve hrefs,
      hasBlogIndicator u = true ∧ ∃ h ∈ hrefs, u = resolve h) ∧
    ((∀ h ∈ hrefs, hasBlogIndicator (resolve h) = false) →
      scrapeBlogLinks resolve hrefs = []) := by
  unfold scrapeBlogLinks
  refine ⟨?_, ?_, ?_, ?_⟩
  · exact List.Nodup.sublist (List.take_sublist _ _) (List.nodup_dedup _)
  · exact List.length_take_le _ _
  · intro u hu
    have hd : u ∈ ((hrefs.map resolve).filter hasBlogIndicator).dedup :=
      List.take_subset _ _ hu
    obtain ⟨hm, hp⟩ := List.mem_filter.mp (List.mem_dedup.mp hd)
    obtain ⟨h, hh, rfl⟩ := List.mem_map.mp hm
    exact ⟨hp, h, hh, rfl⟩
  · intro hall
    have hnil : (hrefs.map resolve).filter hasBlogIndicator = [] := by
      rw [List.filter_eq_nil_iff]
      intro a ha
      obtain ⟨h, hh, rfl⟩ := List.mem_map.mp ha
      simp [hall h hh]
    rw [hnil]
    rfl

/-- C1: the Content Extractor never returns an article whose
whitespace-normalized body text is shorter than 50 characters — it returns
the invalid result (`none`) exactly when the final body text is shorter
than 50, and in that case the orchestrator produces no analysis record for
the input. -/
theorem c1_validity_gate {α : Type} (env : Env) (avail : Bool)
    (polarity : String → α) (soup : Soup) (today : PyDate) :
    (scrapeBlogContent soup today = none ↔ (finalBodyText soup).length < 50) ∧
    (∀ r, scrapeBlogContent soup today = some r →
      r.content_text = finalBodyText soup ∧ 50 ≤ r.content_text.length) ∧
    ((finalBodyText soup).length < 50 →
      processLink env avail polarity soup today = none) := by
  by_cases h : (finalBodyText soup).length < 50
  · refine ⟨⟨fun _ => h, fun _ => ?_⟩, fun r hr => ?_, fun _ => ?_⟩
    · simp [scrapeBlogContent, h]
    · simp [scrapeBlogContent, h] at hr
    · simp [processLink, scrapeBlogContent, h]
  · refine ⟨⟨fun hc => ?_, fun hc => absurd hc h⟩, fun r hr => ?_,
      fun hc => absurd hc h⟩
    · simp [scrapeBlogContent, h] at hc
    · simp [scrapeBlogContent, h] at hr
      rcases hr with rfl
      exact ⟨rfl, not_lt.mp h⟩

/-- Helper: a digit character is neither a dash nor a slash. -/
theorem pyIsDigit_ne (c : Char) (h : pyIsDigit c = true) : c ≠ '-' ∧ c ≠ '/' := by
  constructor <;> rintro rfl <;> exact absurd h (by decide)

/-- Helper: a whitespace character is neither a dash nor a slash. -/
theorem pyIsSpace_ne (c : Char) (h : pyIsSpace c = true) : c ≠ '-' ∧ c ≠ '/' := by
  constructor <;> rintro rfl <;> exact absurd h (by decide)

/-- Helper: month-name abbreviations contain neither a dash nor a slash. -/
theorem monthNames_chars : ∀ mn ∈ monthNames, ∀ c ∈ mn, c ≠ '-' ∧ c ≠ '/' := by
  decide

/-- Helper: a successful `re.search` means the anchored matcher succeeded at
some position. -/
theorem searchFirst_exists {m : List Char → Option (List Char)} :
    ∀ {l s : List Char}, searchFirst m l = some s → ∃ t, m t = some s := by
  intro l
  induction l with
  | nil => exact fun h => ⟨[], h⟩
  | cons c t ih =>
    intro s h
    unfold searchFirst at h
    cases hm : m (c :: t) with
    | some r => rw [hm] at h; exact ⟨c :: t, by rw [hm]; exact h⟩
    | none => rw [hm] at h; exact ih h

/-- Helper: `takeWsRun` returns a run of whitespace. -/
theorem takeWsRun_spec {l ws r : List Char} (h : takeWsRun l = some (ws, r)) :
    ∀ c ∈ ws, pyIsSpace c = true := by
  unfold takeWsRun at h
  split at h
  · split at h
    · obtain ⟨hws, _⟩ := Prod.mk.injEq .. ▸ Option.some.inj h
      subst hws
      exact fun c hc => List.mem_takeWhile_imp hc
    · exact absurd h (by simp)
  · exact absurd h (by simp)

/-- Helper: `matchMonthName` returns one of the twelve month names. -/
theorem matchMonthName_mem {l mn r : List Char} (h : matchMonthName l = some (mn, r)) :
    mn ∈ monthNames := by
  unfold matchMonthName at h
  obtain ⟨a, ha, hfa⟩ := List.exists_of_findSome?_eq_some h
  by_cases hp : a.isPrefixOf l
  · rw [if_pos hp] at hfa
    obtain ⟨rfl, _⟩ := Prod.mk.injEq .. ▸ Option.some.inj hfa
    exact ha
  · rw [if_neg hp] at hfa
    exact absurd hfa (by simp)

/-- Helper: `matchFourDigits` returns digits. -/
theorem matchFourDigits_digits {l ds : List Char} (h : matchFourDigits l = some ds) :
    ∀ c ∈ ds, pyIsDigit c = true := by
  unfold matchFourDigits at h
  split at h
  · rename_i a b c d rest
    split at h
    · rename_i hcond
      simp only [Bool.and_eq_true] at hcond
      obtain rfl := Option.some.inj h
      intro x hx
      simp only [List.mem_cons, List.not_mem_nil, or_false] at hx
      rcases hx with rfl | rfl | rfl | rfl
      · exact hcond.1.1.1
      · exact hcond.1.1.2
      · exact hcond.1.2
      · exact hcond.2
    · exact absurd h (by simp)
  · exact absurd h (by simp)

/-- Helper: any substring matched by the tail of the third date pattern
consists of whitespace, month-name letters and digits — never a dash or a
slash. -/
theorem matchP3Tail_chars {l s : List Char} (h : matchP3Tail l = some s) :
    ∀ c ∈ s, c ≠ '-' ∧ c ≠ '/' := by
  unfold matchP3Tail at h
  split at h
  · exact absurd h (by simp)
  · rename_i ws1 r1 h1
    split at h
    · exact absurd h (by simp)
    · rename_i mn r2 h2
      split at h
      · exact absurd h (by simp)
      · rename_i ws2 r3 h3
        split at h
        · exact absurd h (by simp)
        · rename_i ds h4
          obtain rfl := Option.some.inj h
          intro c hc
          simp only [List.append_assoc, List.mem_append] at hc
          rcases hc with hc | hc | hc | hc
          · exact pyIsSpace_ne c (takeWsRun_spec h1 c hc)
          · exact monthNames_chars mn (matchMonthName_mem h2) c hc
          · exact pyIsSpace_ne c (takeWsRun_spec h3 c hc)
          · exact pyIsDigit_ne c (matchFourDigits_digits h4 c hc)

/-- Helper: any substring matched by the third date pattern contains
neither a dash nor a slash. -/
theorem matchP3At_chars {l s : List Char} (h : matchP3At l = some s) :
    ∀ c ∈ s, c ≠ '-' ∧ c ≠ '/' := by
  unfold matchP3At at h
  split at h
  · rename_i a b rest
    split at h
    · rename_i hda
      split at h
      · rename_i hdb
        split at h
        · rename_i tl h3
          obtain rfl := Option.some.inj h
          intro c hc
          rcases List.mem_cons.mp hc with rfl | hc
          · exact pyIsDigit_ne c hda
          · rcases List.mem_cons.mp hc with rfl | hc
            · exact pyIsDigit_ne c hdb
            · exact matchP3Tail_chars h3 c hc
        · rename_i h3
          rcases Option.map_eq_some'.mp h with ⟨tl, htl, rfl⟩
          intro c hc
          rcases List.mem_cons.mp hc with rfl | hc
          · exact pyIsDigit_ne c hda
          · exact matchP3Tail_chars htl c hc
      · rename_i hdb
        rcases Option.map_eq_some'.mp h with ⟨tl, htl, rfl⟩
        intro c hc
        rcases List.mem_cons.mp hc with rfl | hc
        · exact pyIsDigit_ne c hda
        · exact matchP3Tail_chars htl c hc
    · exact absurd h (by simp)
  · exact absurd h (by simp)

/-- Helper: splitting on a character that does not occur returns the whole
list as the single part. -/
theorem splitOnChar_of_not_mem {sep : Char} :
    ∀ {l : List Char}, sep ∉ l → splitOnChar sep l = [l] := by
  intro l
  induction l with
  | nil => intro _; rfl
  | cons c t ih =>
    intro hmem
    unfold splitOnChar
    rw [if_neg (fun hc => hmem (by rw [← hc]; exact List.mem_cons_self c t)),
      ih (fun hm => hmem (List.mem_cons_of_mem c hm))]

/-- Helper: `strptime` with format `%Y-%m-%d` fails on a string without a
dash. -/
theorem strptimeYmd_eq_none {s : String} (h : '-' ∉ s.data) :
    strptimeYmd s = none := by
  unfold strptimeYmd
  rw [splitOnChar_of_not_mem h]

/-- Helper: `strptime` with format `%m/%d/%Y` fails on a string without a
slash. -/
theorem strptimeMdY_eq_none {s : String} (h : '/' ∉ s.data) :
    strptimeMdY s = none := by
  unfold strptimeMdY
  rw [splitOnChar_of_not_mem h]

/-- Helper: both `strptime` formats fail on a string containing neither a
dash nor a slash. -/
theorem tryParseDate_eq_none {s : String} (hd : '-' ∉ s.data)
    (hs : '/' ∉ s.data) : tryParseDate s = none := by
  unfold tryParseDate
  rw [strptimeYmd_eq_none hd]
  exact strptimeMdY_eq_none hs

/-- Helper: any first match of the third date pattern fails both `strptime`
formats, so the `D Month YYYY` pattern never contributes a date. -/
theorem p3_never_parses (doc : List Char) :
    ((searchFirst matchP3At doc).bind fun s => tryParseDate ⟨s⟩) = none := by
  cases hs : searchFirst matchP3At doc with
  | none => rfl
  | some s =>
    obtain ⟨t, ht⟩ := searchFirst_exists hs
    have hchars := matchP3At_chars ht
    have hd : '-' ∉ (⟨s⟩ : String).data := fun hm => (hchars _ hm).1 rfl
    have hsl : '/' ∉ (⟨s⟩ : String).data := fun hm => (hchars _ hm).2 rfl
    simp [tryParseDate_eq_none hd hsl]

/-- Helper: one iteration of the date-pattern loop. -/
theorem resolveDateLoop_cons (m : List Char → Option (List Char))
    (ms : List (List Char → Option (List Char))) (doc : List Char) :
    resolveDateLoop (m :: ms) doc =
      (((searchFirst m doc).bind fun s => tryParseDate ⟨s⟩).orElse
        (fun _ => resolveDateLoop ms doc)) := by
  cases h : searchFirst m doc with
  | none => simp [resolveDateLoop, h]
  | some s =>
    cases hp : tryParseDate ⟨s⟩ with
    | some d => simp [resolveDateLoop, h, hp]
    | none => simp [resolveDateLoop, h, hp]

/-- C3 counterexample: in `"5 Jan 2020"` the third pattern has a syntactic
match, yet the code resolves no date (the current date gets substituted,
which the claim reserves for documents with no match at all); in
`"2024-13-45"` the first pattern has a syntactic match, but plausibility
validation (`strptime`) rejects it, so again no date is resolved. A
plausible first-pattern match is resolved, showing the model is not
degenerate. -/
theorem c3_counterexample :
    (searchFirst matchP3At "5 Jan 2020".data).isSome = true ∧
    resolvePublicationDate "5 Jan 2020".data = none ∧
    (searchFirst matchP1At "2024-13-45".data).isSome = true ∧
    resolvePublicationDate "2024-13-45".data = none ∧
    resolvePublicationDate "on 2024-03-05".data = some ⟨2024, 3, 5⟩ := by
  decide

/-- C3 (amended): the date loop takes, for each pattern in the fixed order,
only the pattern's leftmost match and accepts it only if it parses as a
valid calendar date under `%Y-%m-%d` or, failing that, `%m/%d/%Y`; matches
of the third pattern (`D Month YYYY`) contain neither dash nor slash and
therefore never parse, so the result is determined by the first two
patterns alone, and `none` (current date substituted by the caller) results
whenever neither pattern's leftmost match validates. -/
theorem c3_date_resolution_amended (doc : List Char) :
    (resolvePublicationDate doc =
      (((searchFirst matchP1At doc).bind fun s => tryParseDate ⟨s⟩).orElse
        (fun _ => (searchFirst matchP2At doc).bind fun s => tryParseDate ⟨s⟩))) ∧
    ((searchFirst matchP3At doc).bind fun s => tryParseDate ⟨s⟩) = none := by
  refine ⟨?_, p3_never_parses doc⟩
  show resolveDateLoop [matchP1At, matchP2At, matchP3At] doc = _
  rw [resolveDateLoop_cons, resolveDateLoop_cons, resolveDateLoop_cons,
    p3_never_parses doc]
  cases hb1 : ((searchFirst matchP1At doc).bind fun s => tryParseDate ⟨s⟩) with
  | some d => simp
  | none =>
    cases hb2 : ((searchFirst matchP2At doc).bind fun s => tryParseDate ⟨s⟩) with
    | some d => simp
    | none => simp [resolveDateLoop]

/-- Helper: stable insertion permutes. -/
theorem insertByKey_perm {α : Type} (key : α → Nat) (x : α) (l : List α) :
    List.Perm (insertByKey key x l) (x :: l) := by
  induction l with
  | nil => exact List.Perm.refl _
  | cons y ys ih =>
    unfold insertByKey
    by_cases h : key x ≤ key y
    · rw [if_pos h]
      exact (ih.cons y).trans (List.Perm.swap x y ys)
    · rw [if_neg h]

/-- Helper: the insertion-sort fold permutes. -/
theorem foldl_insertByKey_perm {α : Type} (key : α → Nat) :
    ∀ (l acc : List α),
      List.Perm (l.foldl (fun a x => insertByKey key x a) acc) (l ++ acc) := by
  intro l
  induction l with
  | nil => intro acc; simp
  | cons x t ih =>
    intro acc
    simp only [List.foldl_cons, List.cons_append]
    exact (ih _).trans
      ((List.Perm.append_left t (insertByKey_perm key x acc)).trans
        List.perm_middle)

/-- Helper: `sortByKeyDesc` permutes its input. -/
theorem sortByKeyDesc_perm {α : Type} (key : α → Nat) (l : List α) :
    List.Perm (sortByKeyDesc key l) l := by
  simpa using foldl_insertByKey_perm key l []

/-- Helper: stable insertion preserves descending sortedness. -/
theorem insertByKey_sorted {α : Type} (key : α → Nat) (x : α) :
    ∀ {l : List α}, l.Pairwise (fun a b => key b ≤ key a) →
      (insertByKey key x l).Pairwise (fun a b => key b ≤ key a) := by
  intro l
  induction l with
  | nil => intro _; simp [insertByKey]
  | cons y ys ih =>
    intro h
    rcases List.pairwise_cons.mp h with ⟨hy, hys⟩
    unfold insertByKey
    by_cases hc : key x ≤ key y
    · rw [if_pos hc]
      refine List.pairwise_cons.mpr ⟨?_, ih hys⟩
      intro z hz
      have hz2 := (insertByKey_perm key x ys).mem_iff.mp hz
      rcases List.mem_cons.mp hz2 with rfl | hz3
      · exact hc
      · exact hy z hz3
    · rw [if_neg hc]
      refine List.pairwise_cons.mpr ⟨?_, h⟩
      intro z hz
      rcases List.mem_cons.mp hz with rfl | hz2
      · exact le_of_lt (not_le.mp hc)
      · exact le_trans (hy z hz2) (le_of_lt (not_le.mp hc))

/-- Helper: inserting a later element below its equal-key predecessors
preserves the stability invariant: any element placed before another either
has a strictly greater key, or an equal key and an earlier position in the
original list. -/
theorem insertByKey_pairwise_stable {α : Type} (key : α → Nat) {S : α → α → Prop}
    (x : α) :
    ∀ {l : List α},
      l.Pairwise (fun a b => key b ≤ key a) →
      l.Pairwise (fun a b => key b < key a ∨ (key a = key b ∧ S a b)) →
      (∀ a ∈ l, S a x) →
      (insertByKey key x l).Pairwise
        (fun a b => key b < key a ∨ (key a = key b ∧ S a b)) := by
  intro l
  induction l with
  | nil => intro _ _ _; simp [insertByKey]
  | cons y ys ih =>
    intro hsort hR hS
    rcases List.pairwise_cons.mp hsort with ⟨hsy, hsys⟩
    rcases List.pairwise_cons.mp hR with ⟨hRy, hRys⟩
    unfold insertByKey
    by_cases hc : key x ≤ key y
    · rw [if_pos hc]
      refine List.pairwise_cons.mpr
        ⟨?_, ih hsys hRys (fun a ha => hS a (List.mem_cons_of_mem y ha))⟩
      intro z hz
      have hz2 := (insertByKey_perm key x ys).mem_iff.mp hz
      rcases List.mem_cons.mp hz2 with rfl | hz3
      · rcases lt_or_eq_of_le hc with hlt | heq
        · exact Or.inl hlt
        · exact Or.inr ⟨heq.symm, hS y (List.mem_cons_self y ys)⟩
      · exact hRy z hz3
    · rw [if_neg hc]
      refine List.pairwise_cons.mpr ⟨?_, hR⟩
      intro z hz
      have hxy : key y < key x := not_le.mp hc
      rcases List.mem_cons.mp hz with rfl | hz2
      · exact Or.inl hxy
      · exact Or.inl (lt_of_le_of_lt (hsy z hz2) hxy)

/-- Helper: the insertion-sort fold keeps the accumulator sorted and
stable, provided every accumulator element precedes every pending element
in the original order. -/
theorem foldl_insertByKey_invariant {α : Type} (key : α → Nat) {S : α → α → Prop} :
    ∀ (l acc : List α),
      acc.Pairwise (fun a b => key b ≤ key a) →
      acc.Pairwise (fun a b => key b < key a ∨ (key a = key b ∧ S a b)) →
      (∀ a ∈ acc, ∀ b ∈ l, S a b) →
      l.Pairwise S →
      (l.foldl (fun a x => insertByKey key x a) acc).Pairwise
          (fun a b => key b ≤ key a) ∧
      (l.foldl (fun a x => insertByKey key x a) acc).Pairwise
          (fun a b => key b < key a ∨ (key a = key b ∧ S a b)) := by
  intro l
  induction l with
  | nil => intro acc h1 h2 _ _; exact ⟨h1, h2⟩
  | cons x t ih =>
    intro acc h1 h2 hcross hl
    rcases List.pairwise_cons.mp hl with ⟨hx, ht⟩
    simp only [List.foldl_cons]
    apply ih
    · exact insertByKey_sorted key x h1
    · exact insertByKey_pairwise_stable key x h1 h2
        (fun a ha => hcross a ha x (List.mem_cons_self x t))
    · intro a ha b hb
      have ha2 := (insertByKey_perm key x acc).mem_iff.mp ha
      rcases List.mem_cons.mp ha2 with rfl | ha3
      · exact hx b hb
      · exact hcross a ha3 b (List.mem_cons_of_mem x hb)
    · exact ht

/-- Helper: the sort is descending in the key. -/
theorem sortByKeyDesc_sorted {α : Type} (key : α → Nat) (l : List α) :
    (sortByKeyDesc key l).Pairwise (fun a b => key b ≤ key a) :=
  (foldl_insertByKey_invariant key (S := fun _ _ => True) l []
    List.Pairwise.nil List.Pairwise.nil (by simp)
    (by induction l with
      | nil => exact List.Pairwise.nil
      | cons a t ih => exact List.Pairwise.cons (fun _ _ => trivial) ih)).1

/-- Helper: the sort is stable: of two output neighbors, the earlier one
has a strictly greater key or the same key and an earlier original
position. -/
theorem sortByKeyDesc_pairwise_stable {α : Type} (key : α → Nat)
    {S : α → α → Prop} (l : List α) (hl : l.Pairwise S) :
    (sortByKeyDesc key l).Pairwise
      (fun a b => key b < key a ∨ (key a = key b ∧ S a b)) :=
  (foldl_insertByKey_invariant key l [] List.Pairwise.nil List.Pairwise.nil
    (by simp) hl).2

/-- Helper: insertion commutes with a key-preserving projection. -/
theorem insertByKey_map {α γ : Type} (key : α → Nat) (key2 : γ → Nat)
    (f : γ → α) (hk : ∀ g, key (f g) = key2 g) (x : γ) :
    ∀ (l : List γ),
      (insertByKey key2 x l).map f = insertByKey key (f x) (l.map f) := by
  intro l
  induction l with
  | nil => rfl
  | cons y ys ih =>
    simp only [insertByKey, List.map_cons, hk]
    by_cases h : key2 x ≤ key2 y
    · rw [if_pos h, if_pos h]
      simp [ih]
    · rw [if_neg h, if_neg h]
      simp

/-- Helper: the sort fold commutes with a key-preserving projection. -/
theorem foldl_insertByKey_map {α γ : Type} (key : α → Nat) (key2 : γ → Nat)
    (f : γ → α) (hk : ∀ g, key (f g) = key2 g) :
    ∀ (l acc : List γ),
      (l.foldl (fun a x => insertByKey key2 x a) acc).map f
        = (l.map f).foldl (fun a x => insertByKey key x a) (acc.map f) := by
  intro l
  induction l with
  | nil => intro acc; rfl
  | cons x t ih =>
    intro acc
    simp only [List.foldl_cons, List.map_cons]
    rw [ih, insertByKey_map key key2 f hk]

/-- Helper: sorting the enumerated list and projecting away the indices is
sorting the original list. -/
theorem sortByKeyDesc_enum_map {α : Type} (key : α → Nat) (l : List α) :
    (sortByKeyDesc (fun q => key q.2) l.enum).map Prod.snd
      = sortByKeyDesc key l := by
  unfold sortByKeyDesc
  rw [foldl_insertByKey_map key (fun q => key q.2) Prod.snd (fun _ => rfl),
    List.enum_map_snd]
  rfl

/-- Helper: the enumeration is strictly increasing in its indices. -/
theorem enum_pairwise_lt {α : Type} (l : List α) :
    l.enum.Pairwise (fun a b => a.1 < b.1) := by
  have h := List.pairwise_lt_range l.length
  rw [← List.enum_map_fst] at h
  exact List.pairwise_map.mp h

/-- C8: `top_words` is at most 10 `(word, count)` pairs drawn from the
frequency table of the retained (lowercased, tokenized, alphabetic,
non-stop-word) tokens, ordered by count descending; the same list is a
prefix of the stable sort of the discovery-ordered (enumerated) frequency
table, whose neighbors either strictly decrease in count or tie with the
earlier-discovered word first. -/
theorem c8_top_frequent_words (env : Env) (text : String) :
    (topWords env text).length ≤ 10 ∧
    (∀ p ∈ topWords env text, p ∈ buildFreq (retainedWords env text)) ∧
    (topWords env text).Pairwise (fun a b => b.2 ≤ a.2) ∧
    topWords env text =
      ((sortByKeyDesc (fun q => q.2.2)
        (buildFreq (retainedWords env text)).enum).take 10).map Prod.snd ∧
    ((sortByKeyDesc (fun q => q.2.2)
        (buildFreq (retainedWords env text)).enum).take 10).Pairwise
      (fun a b => b.2.2 < a.2.2 ∨ (a.2.2 = b.2.2 ∧ a.1 < b.1)) := by
  refine ⟨?_, ?_, ?_, ?_, ?_⟩
  · exact List.length_take_le _ _
  · intro p hp
    unfold topWords at hp
    exact (sortByKeyDesc_perm _ _).mem_iff.mp (List.take_subset _ _ hp)
  · exact List.Pairwise.sublist (List.take_sublist _ _)
      (sortByKeyDesc_sorted (fun p : String × Nat => p.2)
        (buildFreq (retainedWords env text)))
  · unfold topWords
    rw [List.map_take,
      sortByKeyDesc_enum_map (fun p : String × Nat => p.2)
        (buildFreq (retainedWords env text))]
  · exact List.Pairwise.sublist (List.take_sublist _ _)
      (sortByKeyDesc_pairwise_stable (fun q : Nat × String × Nat => q.2.2)
        (buildFreq (retainedWords env text)).enum
        (enum_pairwise_lt (buildFreq (retainedWords env text))))
